import Mathlib

/-!
Shallow embedding of the sqlx ephemeral-test-database harness:

* `src/sqlx-core/src/postgres/testing/mod.rs` — master pool registry
  (`MASTER_POOL.try_insert` plus host/database sanity asserts), the
  provisioner `test_context`, the reaper `do_cleanup`, `cleanup_test` and
  `cleanup_test_dbs`;
* `src/sqlx-core/src/testing/mod.rs` — the test-entry dispatcher
  (`run_test`, the `TestFn` impl for `FnOnce(Pool<DB>)`, `TestTermination`);
* `src/sqlx-macros/src/test.rs` — attribute-argument parsing (`parse_args`)
  and the migrations-option resolution in `expand`.

Modelling conventions:

* Timestamps are natural numbers (seconds).  The source converts a
  `SystemTime` to fractional seconds before binding it into the candidate
  `select`; the embedding keeps timestamps in one integral clock domain.
* Database effects are explicit: each operation returns the statements it
  issued (`Stmt`), the updated tracking-table state, and trace-level log
  lines, alongside an `Outcome` that distinguishes ordinary errors from
  panics (`expect`/`assert!`/`panic!` in the source).
* Results of remote statements (drop failures, connection errors) are
  supplied by environment records, since they depend on the outside world.
-/

namespace Sqlx

/-- Errors from the database layer.  The source distinguishes
`Error::Database(_)` (a database-level error such as "database is being
accessed by other users") from every other variant of `sqlx::Error`. -/
inductive SqlxError where
  | database (msg : String)
  | other (msg : String)
deriving DecidableEq, Repr

/-- Result of one operation: an ordinary value, a recoverable `Err`, or a
process panic (`expect`, `assert_eq!`, `panic!`). -/
inductive Outcome (α : Type) where
  | ok (a : α)
  | err (e : SqlxError)
  | panic (msg : String)
deriving DecidableEq, Repr

/-- One row of the `__sqlx_test_databases` tracking table:
`(db_name text primary key, test_path text, created_at timestamptz)`. -/
structure TrackingRecord where
  db_name : String
  test_path : String
  created_at : Nat
deriving DecidableEq, Repr

/-- The tracking table, in row order. -/
abbrev TrackingTable := List TrackingRecord

/-- SQL statements observable in this embedding, one constructor per
statement shape issued by the source. -/
inductive Stmt where
  /-- The `create table if not exists ... / create index / create sequence`
  batch in `test_context`. -/
  | createSchema
  /-- `select db_name from __sqlx_test_databases where created_at < to_timestamp($1)`. -/
  | selectCandidates (epoch : Nat)
  /-- One `drop database if exists {name}` statement. -/
  | dropDatabase (db_name : String)
  /-- `delete from __sqlx_test_databases where db_name = any($1::text[])`
  — the single bulk delete at the end of `do_cleanup`. -/
  | deleteTrackingRows (db_names : List String)
  /-- `delete from __sqlx_test_databases where db_name = {name}` — the
  per-test delete inside `cleanup_test`. -/
  | deleteTrackingRow (db_name : String)
  /-- The single `insert into __sqlx_test_databases(db_name, test_path)
  select '__sqlx_test_' || nextval(...), $1` statement whose scalar read
  yields the new database name. -/
  | insertTestDatabase (db_name : String) (test_path : String)
deriving DecidableEq, Repr

/-! ### The reaper: `do_cleanup` (postgres/testing/mod.rs, lines 132-184) -/

deriving instance DecidableEq for Except

/-- Per-statement result of the batched `drop database` command, as consumed
from `conn.execute_many(..)`. -/
abbrev DropResult := Except SqlxError Unit

/-- The `log::trace!("could not delete database {:?}: {}", db_name, dbe)`
line, rendered as text. -/
def traceLogMsg (db_name msg : String) : String :=
  "could not delete database " ++ db_name ++ ": " ++ msg

/-- Result of the `while let Some(result) = results.next()` loop in
`do_cleanup`. -/
inductive DropLoopResult where
  | finished (deleted : List String) (logs : List String)
  | errored (e : SqlxError) (logs : List String)
  | panicked (msg : String)
deriving DecidableEq, Repr

/-- The result-consumption loop of `do_cleanup`: each incoming result is
paired with the next candidate name (`delete_db_names.next().expect(..)` —
running out of candidates while results remain is a panic).  `Ok` pushes the
name onto `deleted_db_names`; `Err(Error::Database(_))` is logged at trace
level and skipped; any other error is returned to the caller. -/
def do_cleanup_loop : List DropResult → List String → List String → List String →
    DropLoopResult
  | [], _, deleted, logs => .finished deleted.reverse logs.reverse
  | _ :: _, [], _, _ => .panicked "got more results than expected"
  | .ok _ :: rs, name :: names, deleted, logs =>
      do_cleanup_loop rs names (name :: deleted) logs
  | .error (.database m) :: rs, name :: names, deleted, logs =>
      do_cleanup_loop rs names deleted (traceLogMsg name m :: logs)
  | .error (.other m) :: _, _ :: _, _, logs => .errored (.other m) logs.reverse

/-- Everything observable about one `do_cleanup` pass. -/
structure CleanupResult where
  outcome : Outcome Nat
  table : TrackingTable
  stmts : List Stmt
  logs : List String
deriving DecidableEq, Repr

/-- Environment for a reaper pass: the per-statement results produced by the
server for the batched drop command, and whether the final bulk delete of
tracking rows fails (`.execute(..).await?`). -/
structure CleanupEnv where
  dropResults : List DropResult
  deleteErr : Option SqlxError
deriving Repr

/-- The candidate query of `do_cleanup`:
`select db_name from __sqlx_test_databases where created_at < to_timestamp($1)`. -/
def selectCandidates (table : TrackingTable) (epoch : Nat) : List String :=
  (table.filter (fun r => decide (r.created_at < epoch))).map (fun r => r.db_name)

/-- `do_cleanup(conn, epoch)`:
1. select tracked names with `created_at < epoch`; empty → return `Ok(0)`;
2. send one batched command with a `drop database if exists` per candidate;
3. consume per-statement results in candidate order (`do_cleanup_loop`);
4. bulk-delete the tracking rows of the successfully dropped names in one
   statement and return their count. -/
def do_cleanup (table : TrackingTable) (epoch : Nat) (env : CleanupEnv) :
    CleanupResult :=
  let names := selectCandidates table epoch
  if names.isEmpty then
    { outcome := .ok 0, table := table, stmts := [.selectCandidates epoch], logs := [] }
  else
    let issued := Stmt.selectCandidates epoch :: names.map Stmt.dropDatabase
    match do_cleanup_loop env.dropResults names [] [] with
    | .finished deleted logs =>
        match env.deleteErr with
        | some e =>
            { outcome := .err e, table := table,
              stmts := issued ++ [.deleteTrackingRows deleted], logs := logs }
        | none =>
            { outcome := .ok deleted.length,
              table := table.filter (fun r => !decide (r.db_name ∈ deleted)),
              stmts := issued ++ [.deleteTrackingRows deleted], logs := logs }
    | .errored e logs =>
        { outcome := .err e, table := table, stmts := issued, logs := logs }
    | .panicked msg =>
        { outcome := .panic msg, table := table, stmts := issued, logs := [] }

/-! ### Master pool registry (postgres/testing/mod.rs, lines 14, 60-89) -/

/-- The identity-bearing part of `PgConnectOptions`: the fields the registry
sanity checks compare. -/
structure PgConnectOptions where
  host : String
  database : String
deriving DecidableEq, Repr

/-- `PgConnectOptions::database(..)` — repoint the options at a database. -/
def PgConnectOptions.setDatabase (o : PgConnectOptions) (db : String) :
    PgConnectOptions :=
  { o with database := db }

/-- The builder-visible state of a `PoolOptions`: only the knobs the source
touches.  `none` means the builder default was left in place. -/
structure PoolOptionsModel where
  max_connections : Option Nat
  idle_timeout : Option Nat
  parentIsMaster : Bool
deriving DecidableEq, Repr

/-- `PoolOptions::new()`. -/
def PoolOptionsModel.new : PoolOptionsModel :=
  { max_connections := none, idle_timeout := none, parentIsMaster := false }

/-- `.max_connections(n)`. -/
def PoolOptionsModel.setMaxConnections (o : PoolOptionsModel) (n : Nat) :
    PoolOptionsModel :=
  { o with max_connections := some n }

/-- `.idle_timeout(d)` (seconds). -/
def PoolOptionsModel.setIdleTimeout (o : PoolOptionsModel) (d : Option Nat) :
    PoolOptionsModel :=
  { o with idle_timeout := d }

/-- `.parent(master_pool.clone())`. -/
def PoolOptionsModel.withParent (o : PoolOptionsModel) : PoolOptionsModel :=
  { o with parentIsMaster := true }

/-- A pool: its builder options and its connect options. -/
structure Pool where
  options : PoolOptionsModel
  connect_options : PgConnectOptions
deriving DecidableEq, Repr

/-- The options used to build the master pool:
`PoolOptions::new().max_connections(20)` ("Postgres' normal connection limit
is 100 plus 3 superuser connections; we don't want to use the whole cap"). -/
def masterPoolOptions : PoolOptionsModel :=
  PoolOptionsModel.new.setMaxConnections 20

/-- The pool `test_context` builds before `MASTER_POOL.try_insert`. -/
def mkMasterPool (opts : PgConnectOptions) : Pool :=
  { options := masterPoolOptions, connect_options := opts }

/-- Result of one registry access: the retained pool, or an
`assert_eq!` failure (a panic, not an `Err`). -/
inductive RegistryResult where
  | ok (pool : Pool)
  | panic (msg : String)
deriving DecidableEq, Repr

/-- `MASTER_POOL.try_insert(pool)` followed by the sanity checks: on an empty
cell the freshly-built pool is installed and returned; otherwise the loser is
discarded after its `host` then `database` are `assert_eq!`-compared against
the retained pool's, and the retained pool is returned. -/
def tryInsertMaster (state : Option Pool) (master_opts : PgConnectOptions) :
    RegistryResult :=
  match state with
  | none => .ok (mkMasterPool master_opts)
  | some existing =>
      let pool := mkMasterPool master_opts
      if existing.connect_options.host ≠ pool.connect_options.host then
        .panic "DATABASE_URL changed at runtime, host differs"
      else if existing.connect_options.database ≠ pool.connect_options.database then
        .panic "DATABASE_URL changed at runtime, database differs"
      else .ok existing

/-- A sequence of registry accesses.  A panic aborts the sequence (an
assertion failure is fatal to the affected test); the cell itself is left
unchanged by the losing access. -/
def registryRun : Option Pool → List PgConnectOptions → Option Pool × List RegistryResult
  | st, [] => (st, [])
  | st, o :: os =>
      match tryInsertMaster st o with
      | .ok p =>
          let rest := registryRun (some p) os
          (rest.1, .ok p :: rest.2)
      | .panic m => (st, [.panic m])

/-! ### Database-name generation

The provisioner names each database
`'__sqlx_test_' || nextval(__sqlx_test_database_ids)`; Postgres renders the
`bigint` sequence value in decimal.  `natToText` is that decimal rendering
(for the positive values a fresh sequence produces), kept structurally
recursive on a fuel argument so that it reduces in the kernel. -/

/-- Little-endian decimal digits of `n`, with fuel; `decDigitsAux n n` is
total for every `n`. -/
def decDigitsAux : Nat → Nat → List Nat
  | 0, _ => []
  | fuel + 1, n => if n = 0 then [] else n % 10 :: decDigitsAux fuel (n / 10)

/-- Value of a little-endian digit list (base 10). -/
def digitVal : List Nat → Nat
  | [] => 0
  | d :: ds => d + 10 * digitVal ds

/-- Decimal rendering of a positive integer (the empty string for 0, which
the sequence never yields: `nextval` of a fresh sequence starts at 1). -/
def natToText (n : Nat) : String :=
  String.mk ((decDigitsAux n n).reverse.map Nat.digitChar)

/-- The name `'__sqlx_test_' || n` the provisioner's insert produces. -/
def newDbName (n : Nat) : String :=
  "__sqlx_test_" ++ natToText n

/-! ### Process state and the provisioner `test_context`
(postgres/testing/mod.rs, lines 60-130) -/

/-- Process-wide state: the `MASTER_POOL` once-cell, the `START_TIME` lazy
cell, and the master database's server-side state (the tracking table and the
`__sqlx_test_database_ids` sequence, whose last issued value is `seq`). -/
structure ProcessState where
  masterPool : Option Pool
  startTime : Option Nat
  seq : Nat
  table : TrackingTable
deriving DecidableEq, Repr

/-- Fresh process, fresh master database. -/
def ProcessState.initial : ProcessState :=
  { masterPool := none, startTime := none, seq := 0, table := [] }

/-- `TestContext { pool_opts, connect_opts, db_name }`. -/
structure TestContext where
  pool_opts : PoolOptionsModel
  connect_opts : PgConnectOptions
  db_name : String
deriving DecidableEq, Repr

/-- The per-test pool profile built by `test_context`:
`PoolOptions::new().max_connections(50).idle_timeout(Some(1s)).parent(master)`. -/
def testPoolOptions : PoolOptionsModel :=
  ((PoolOptionsModel.new.setMaxConnections 50).setIdleTimeout (some 1)).withParent

/-- Environment of one `test_context` call: the failure knobs for each
fallible remote step, and the environment of the embedded reaper pass. -/
structure TestContextEnv where
  acquireErr : Option SqlxError
  schemaErr : Option SqlxError
  cleanup : CleanupEnv
  insertErr : Option SqlxError
deriving Repr

/-- An all-green environment (no remote failures, no drop candidates
answered). -/
def TestContextEnv.quiet : TestContextEnv :=
  { acquireErr := none, schemaErr := none,
    cleanup := { dropResults := [], deleteErr := none }, insertErr := none }

/-- Everything observable about one `test_context` call. -/
structure TestContextResult where
  outcome : Outcome TestContext
  state : ProcessState
  stmts : List Stmt
deriving Repr

/-- `test_context(master_opts, test_path)`:
1. build a lazily-connecting pool capped at 20 and `MASTER_POOL.try_insert`
   it (host/database mismatch against the retained pool is a panic);
2. acquire a connection from the master pool;
3. idempotently create the tracking table, its index and the name sequence;
4. run `do_cleanup(conn, *START_TIME)` — the lazy cell captures the current
   time on first dereference and is fixed thereafter;
5. insert-and-return the new database name in one statement
   (`insert .. select '__sqlx_test_' || nextval(..), $1`);
6. return the `TestContext` (per-test pool options parented to the master
   pool, connect options pointing at the new database, and the name — the
   source writes the field as `db_name`, bound from the scalar read).
`now` is the current time, used both for the lazy `START_TIME` capture and
as the server-side `created_at` default of the inserted row. -/
def test_context (st : ProcessState) (now : Nat) (master_opts : PgConnectOptions)
    (test_path : String) (env : TestContextEnv) : TestContextResult :=
  match tryInsertMaster st.masterPool master_opts with
  | .panic m => { outcome := .panic m, state := st, stmts := [] }
  | .ok master =>
    let st1 : ProcessState := { st with masterPool := some master }
    match env.acquireErr with
    | some e => { outcome := .err e, state := st1, stmts := [] }
    | none =>
      match env.schemaErr with
      | some e => { outcome := .err e, state := st1, stmts := [.createSchema] }
      | none =>
        let epoch := st1.startTime.getD now
        let st2 : ProcessState := { st1 with startTime := some epoch }
        let cr := do_cleanup st2.table epoch env.cleanup
        let st3 : ProcessState := { st2 with table := cr.table }
        let stmts := Stmt.createSchema :: cr.stmts
        match cr.outcome with
        | .err e => { outcome := .err e, state := st3, stmts := stmts }
        | .panic m => { outcome := .panic m, state := st3, stmts := stmts }
        | .ok _ =>
          match env.insertErr with
          | some e => { outcome := .err e, state := st3, stmts := stmts }
          | none =>
            let n := st3.seq + 1
            let name := newDbName n
            let record : TrackingRecord :=
              { db_name := name, test_path := test_path, created_at := now }
            { outcome := .ok
                { pool_opts := testPoolOptions
                  connect_opts := master.connect_options.setDatabase name
                  db_name := name }
              state := { st3 with seq := n, table := st3.table ++ [record] }
              stmts := stmts ++ [.insertTestDatabase name test_path] }

/-- One provisioning call in a sequence. -/
structure TcCall where
  now : Nat
  master_opts : PgConnectOptions
  test_path : String
  env : TestContextEnv

/-- A sequence of provisioning calls threading the process state.  A failed
call aborts only its own test; later calls still run. -/
def test_context_runs (st : ProcessState) :
    List TcCall → List TestContextResult × ProcessState
  | [] => ([], st)
  | c :: cs =>
    let r := test_context st c.now c.master_opts c.test_path c.env
    let rest := test_context_runs r.state cs
    (r :: rest.1, rest.2)

/-- The database names handed out by the successful calls of a run. -/
def runDbNames (rs : List TestContextResult) : List String :=
  rs.filterMap fun r =>
    match r.outcome with
    | .ok c => some c.db_name
    | _ => none

/-! ### `cleanup_test` and `cleanup_test_dbs`
(postgres/testing/mod.rs, lines 26-51) -/

/-- `cleanup_test(db_name)`: `MASTER_POOL.get().expect(..)` — a panic, with
the source's literal message, when the cell was never initialized — then one
`execute` carrying `drop database if exists {name}; delete from
__sqlx_test_databases where db_name = {name}` whose failure surfaces as an
ordinary `Err`. -/
def cleanup_test (st : ProcessState) (db_name : String) (execErr : Option SqlxError) :
    Outcome Unit × ProcessState × List Stmt :=
  match st.masterPool with
  | none => (.panic "cleanup_test() invoked outside `#[sqlx::test]", st, [])
  | some _ =>
    match execErr with
    | some e => (.err e, st, [.dropDatabase db_name, .deleteTrackingRow db_name])
    | none =>
      (.ok (),
       { st with table := st.table.filter (fun r => !decide (r.db_name = db_name)) },
       [.dropDatabase db_name, .deleteTrackingRow db_name])

/-- `cleanup_test_dbs(opts)`: connect with `opts`, run
`do_cleanup(&mut conn, SystemTime::now())` — the *current* wall-clock time,
not the process `START_TIME` — close, and return the deleted count (the
source spells the final wrap `OK(num_deleted)`, evidently `Ok`).  Returns
`(outcome, table after the pass, statements issued)`. -/
def cleanup_test_dbs (now : Nat) (table : TrackingTable)
    (connectErr : Option SqlxError) (env : CleanupEnv) :
    Outcome Nat × TrackingTable × List Stmt :=
  match connectErr with
  | some e => (.err e, table, [])
  | none =>
    let cr := do_cleanup table now env
    (cr.outcome, cr.table, cr.stmts)

/-! ### The dispatcher foundation `run_test`
(sqlx-core/src/testing/mod.rs, lines 190-230)

`TestTermination` is modelled by the `success` predicate handed to
`run_test`: `()` is always success, `!` vacuously so, and `Result` succeeds
iff `is_ok` — the caller supplies the `is_success` of the outcome type. -/

/-- Everything observable about one `run_test` invocation. -/
structure RunTestResult (R : Type) where
  outcome : Outcome R
  state : ProcessState
  cleanupStmts : List Stmt
  cleanupRan : Bool
deriving Repr

/-- `run_test(test_path, test_fn)`: read `DATABASE_URL` (a panic when absent
or unparseable — `database_url = none` folds both `expect`s), resolve the
`TestContext` (`expect("failed to connect to DATABASE_URL")` turns an `Err`
into a panic), run the test closure on `(pool_opts, connect_opts)`, and run
`cleanup_test(db_name)` only when `res.is_success()`, ignoring its result
(`if let Err(e) = .. {}`).  The block's value is `res`, per the declared
return type `Fut::Output`. -/
def run_test {R : Type} (success : R → Bool) (st : ProcessState) (now : Nat)
    (database_url : Option PgConnectOptions) (test_path : String)
    (env : TestContextEnv) (cleanupErr : Option SqlxError)
    (test_fn : PoolOptionsModel → PgConnectOptions → R) : RunTestResult R :=
  match database_url with
  | none =>
      { outcome := .panic "DATABASE_URL must be set with `#[sqlx::test]`",
        state := st, cleanupStmts := [], cleanupRan := false }
  | some master_opts =>
    let tc := test_context st now master_opts test_path env
    match tc.outcome with
    | .err _ =>
        { outcome := .panic "failed to connect to DATABASE_URL",
          state := tc.state, cleanupStmts := [], cleanupRan := false }
    | .panic m =>
        { outcome := .panic m, state := tc.state, cleanupStmts := [], cleanupRan := false }
    | .ok ctx =>
      let res := test_fn ctx.pool_opts ctx.connect_opts
      if success res then
        match cleanup_test tc.state ctx.db_name cleanupErr with
        | (.panic m, st2, stmts) =>
            { outcome := .panic m, state := st2, cleanupStmts := stmts, cleanupRan := true }
        | (_, st2, stmts) =>
            { outcome := .ok res, state := st2, cleanupStmts := stmts, cleanupRan := true }
      else
        { outcome := .ok res, state := tc.state, cleanupStmts := [], cleanupRan := false }

/-! ### The `Pool`-entry test pipeline
(sqlx-core/src/testing/mod.rs, lines 49-58 and 76-108) -/

/-- `TestFixture { path, contents }`. -/
structure TestFixture where
  path : String
  contents : String
deriving DecidableEq, Repr

/-- `TestArgs { test_path, migrator, fixtures }`.  The `Migrator` is opaque
to this subsystem; only its presence matters. -/
structure TestArgs where
  test_path : String
  migrator : Option Unit
  fixtures : List TestFixture
deriving Repr

/-- Observable effects applied to the ephemeral test database, in order. -/
inductive DbAction where
  | migrationsApplied
  | fixtureApplied (path : String)
deriving DecidableEq, Repr

/-- Environment of the `Pool`-entry pipeline: whether pool creation fails,
whether `migrator.run(&pool)` fails, and which fixture SQL texts fail when
executed (`pool.execute(fixture.contents)`). -/
structure PoolTestEnv where
  connectErr : Bool
  migrateErr : Bool
  fixtureFails : String → Bool

/-- Everything observable about the pipeline around one test body. -/
structure PoolTestResult (R : Type) where
  outcome : Outcome R
  db : List DbAction
  bodyRan : Bool
deriving Repr

/-- The `for fixture in args.fixtures` loop: apply each fixture in declared
order; the first failing one stops the loop and reports its path.  Returns
the database state reached and the failing path, if any. -/
def applyFixturesLoop (fails : String → Bool) (db : List DbAction) :
    List TestFixture → List DbAction × Option String
  | [] => (db, none)
  | f :: fs =>
      if fails f.contents then (db, some f.path)
      else applyFixturesLoop fails (db ++ [.fixtureApplied f.path]) fs

/-- Tail of `pool_test_fn` after pool creation and the migration step. -/
def pool_test_body {R : Type} (args : TestArgs) (env : PoolTestEnv)
    (body : List DbAction → R) (db : List DbAction) : PoolTestResult R :=
  match applyFixturesLoop env.fixtureFails db args.fixtures with
  | (db2, some path) =>
      { outcome := .panic ("failed to apply fixture " ++ path),
        db := db2, bodyRan := false }
  | (db2, none) =>
      { outcome := .ok (body db2), db := db2, bodyRan := true }

/-- The closure the `TestFn` impl for `FnOnce(Pool<DB>)` hands to `run_test`
(lines 85-107): connect the pool (`expect("failed to create pool")`), run
migrations when configured (`expect("failed to apply migrations")`), apply
the fixtures in declared order — the first failure panics with
`failed to apply fixture {path}` — then invoke the test body with the live
pool.  `db0` is the ephemeral database's state on entry; the body observes
the database state reached after migrations and fixtures. -/
def pool_test_fn {R : Type} (args : TestArgs) (env : PoolTestEnv)
    (body : List DbAction → R) (db0 : List DbAction) : PoolTestResult R :=
  if env.connectErr then
    { outcome := .panic "failed to create pool", db := db0, bodyRan := false }
  else
    match args.migrator with
    | some _ =>
        if env.migrateErr then
          { outcome := .panic "failed to apply migrations", db := db0, bodyRan := false }
        else pool_test_body args env body (db0 ++ [.migrationsApplied])
    | none => pool_test_body args env body db0

/-! ### Attribute-argument parsing (sqlx-macros/src/test.rs) -/

/-- The literal kinds `parse_args` distinguishes (`syn::Lit`). -/
inductive SynLit where
  | str (s : String)
  | boolean (b : Bool)
  | int (n : Int)
  | otherLit
deriving DecidableEq, Repr

/-- One item inside `fixtures(..)`: a nested meta that is either a literal
or some other meta form. -/
inductive FixtureItem where
  | lit (l : SynLit)
  | meta
deriving DecidableEq, Repr

/-- One attribute argument: `fixtures(..)`, `migrations = <lit>`, or
anything else. -/
inductive AttrArg where
  | fixturesList (items : List FixtureItem)
  | migrationsNameValue (l : SynLit)
  | otherArg
deriving DecidableEq, Repr

/-- `enum MigrationsOpt`. -/
inductive MigrationsOpt where
  | inferredPath
  | explicitPath (path : String)
  | disabled
deriving DecidableEq, Repr

/-- `struct Args`. -/
structure Args where
  fixtures : List String
  migrations : MigrationsOpt
deriving DecidableEq, Repr

/-- The inner loop over `list.nested` for a `fixtures(..)` argument: every
item must be a string literal; anything else is
`Err("expected string literal")`. -/
def parseFixtureItems : List FixtureItem → Except String (List String)
  | [] => .ok []
  | .lit (.str s) :: rest =>
      match parseFixtureItems rest with
      | .ok ss => .ok (s :: ss)
      | .error e => .error e
  | _ :: _ => .error "expected string literal"

/-- The `for arg in attr_args` loop of `parse_args`, carrying the mutable
`fixtures` vector and `migrations` state. -/
def parse_args_loop (fixtures : List String) (migrations : MigrationsOpt) :
    List AttrArg → Except String Args
  | [] => .ok { fixtures := fixtures, migrations := migrations }
  | .fixturesList items :: rest =>
      if fixtures ≠ [] then .error "duplicate `fixtures` arg"
      else
        match parseFixtureItems items with
        | .error e => .error e
        | .ok new => parse_args_loop (fixtures ++ new) migrations rest
  | .migrationsNameValue l :: rest =>
      match migrations with
      | .explicitPath _ => .error "duplicate `migrations` arg"
      | .disabled => .error "duplicate `migrations` arg"
      | .inferredPath =>
          match l with
          | .boolean false => parse_args_loop fixtures .disabled rest
          | .boolean true => .error "`migrations = true` is redundant"
          | .str path => parse_args_loop fixtures (.explicitPath path) rest
          | _ => .error "expected string or `false`"
  | .otherArg :: _ =>
      .error "expected `fixtures(\"<filename>\", ...)` or `migrations = \"<path>\" | false`"

/-- `parse_args(attr_args)`: `fixtures` starts empty, `migrations` starts
as the inferred default. -/
def parse_args (args : List AttrArg) : Except String Args :=
  parse_args_loop [] .inferredPath args

/-- The migrations directory `expand` resolves for each `MigrationsOpt`
(test.rs lines 44-55): the inferred default is the directory literally named
`migrations`; an explicit path is used as given; `Disabled` produces no
migrator at all. -/
def migrationsDirectory : MigrationsOpt → Option String
  | .inferredPath => some "migrations"
  | .explicitPath p => some p
  | .disabled => none

/-! ## Helper lemmas -/

theorem digitVal_decDigitsAux (fuel : Nat) :
    ∀ n, n ≤ fuel → digitVal (decDigitsAux fuel n) = n := by
  induction fuel with
  | zero =>
      intro n hn
      have : n = 0 := Nat.le_zero.mp hn
      subst this
      rfl
  | succ f ih =>
      intro n hn
      by_cases h0 : n = 0
      · subst h0; simp [decDigitsAux, digitVal]
      · have hdiv : n / 10 ≤ f := by
          have hlt : n / 10 < n := Nat.div_lt_self (Nat.pos_of_ne_zero h0) (by norm_num)
          omega
        simp only [decDigitsAux, h0, if_false, digitVal, ih _ hdiv]
        omega

theorem decDigitsAux_lt (fuel : Nat) :
    ∀ n d, d ∈ decDigitsAux fuel n → d < 10 := by
  induction fuel with
  | zero => intro n d hd; simp [decDigitsAux] at hd
  | succ f ih =>
      intro n d hd
      by_cases h0 : n = 0
      · subst h0; simp [decDigitsAux] at hd
      · simp only [decDigitsAux, h0, if_false, List.mem_cons] at hd
        rcases hd with h | h
        · subst h; exact Nat.mod_lt _ (by norm_num)
        · exact ih _ _ h

theorem digitChar_injOn :
    ∀ a, a < 10 → ∀ b, b < 10 → Nat.digitChar a = Nat.digitChar b → a = b := by
  decide

theorem map_digitChar_inj :
    ∀ l1 l2 : List Nat, (∀ x ∈ l1, x < 10) → (∀ x ∈ l2, x < 10) →
      l1.map Nat.digitChar = l2.map Nat.digitChar → l1 = l2 := by
  intro l1
  induction l1 with
  | nil => intro l2 _ _ h; cases l2 <;> simp_all
  | cons a as ih =>
      intro l2 h1 h2 h
      cases l2 with
      | nil => simp at h
      | cons b bs =>
          simp only [List.map_cons, List.cons.injEq] at h
          have ha : a = b :=
            digitChar_injOn a (h1 a (by simp)) b (h2 b (by simp)) h.1
          have hs : as = bs :=
            ih bs (fun x hx => h1 x (by simp [hx])) (fun x hx => h2 x (by simp [hx])) h.2
          rw [ha, hs]

theorem natToText_inj {m n : Nat} (h : natToText m = natToText n) : m = n := by
  unfold natToText at h
  have hdata : (decDigitsAux m m).reverse.map Nat.digitChar
      = (decDigitsAux n n).reverse.map Nat.digitChar := congrArg String.data h
  have hrev : (decDigitsAux m m).reverse = (decDigitsAux n n).reverse :=
    map_digitChar_inj _ _
      (fun x hx => decDigitsAux_lt m m x (List.mem_reverse.mp hx))
      (fun x hx => decDigitsAux_lt n n x (List.mem_reverse.mp hx)) hdata
  have hlists : decDigitsAux m m = decDigitsAux n n := List.reverse_injective hrev
  calc m = digitVal (decDigitsAux m m) := (digitVal_decDigitsAux m m le_rfl).symm
    _ = digitVal (decDigitsAux n n) := by rw [hlists]
    _ = n := digitVal_decDigitsAux n n le_rfl

theorem newDbName_inj {m n : Nat} (h : newDbName m = newDbName n) : m = n := by
  unfold newDbName at h
  have hdata := congrArg String.data h
  rw [String.data_append, String.data_append] at hdata
  have : (natToText m).data = (natToText n).data := List.append_cancel_left hdata
  exact natToText_inj (String.ext this)

/-- Is this statement the provisioner's insert-and-return statement? -/
def isInsertStmt : Stmt → Bool
  | .insertTestDatabase _ _ => true
  | _ => false

/-- Does this result list contain no error other than `Error::Database`? -/
def noOtherErr (rs : List DropResult) : Bool :=
  rs.all fun r =>
    match r with
    | .error (.other _) => false
    | _ => true

/-- The names attributed to `Ok` results when result `i` is paired with
candidate `i` (the loop's order-correspondence contract). -/
def collectDeleted : List DropResult → List String → List String
  | [], _ => []
  | _ :: _, [] => []
  | .ok _ :: rs, n :: ns => n :: collectDeleted rs ns
  | .error _ :: rs, _ :: ns => collectDeleted rs ns

/-- The trace-level log lines produced when result `i` is a database-level
error, naming candidate `i`. -/
def collectTraceLogs : List DropResult → List String → List String
  | .error (.database m) :: rs, n :: ns => traceLogMsg n m :: collectTraceLogs rs ns
  | _ :: rs, _ :: ns => collectTraceLogs rs ns
  | _, _ => []

theorem do_cleanup_loop_finished (rs : List DropResult) :
    ∀ (ns : List String) (acc logs : List String),
      noOtherErr rs = true → rs.length ≤ ns.length →
      do_cleanup_loop rs ns acc logs
        = .finished (acc.reverse ++ collectDeleted rs ns)
            (logs.reverse ++ collectTraceLogs rs ns) := by
  induction rs with
  | nil =>
      intro ns acc logs _ _
      cases ns <;> simp [do_cleanup_loop, collectDeleted, collectTraceLogs]
  | cons r rs ih =>
      intro ns acc logs hno hlen
      cases ns with
      | nil => simp at hlen
      | cons n ns =>
          simp only [noOtherErr, List.all_cons, Bool.and_eq_true] at hno
          match r with
          | .ok () =>
              have := ih ns (n :: acc) logs (by simpa [noOtherErr] using hno.2)
                (by simpa using hlen)
              simp [do_cleanup_loop, this, collectDeleted, collectTraceLogs]
          | .error (.database m) =>
              have := ih ns acc (traceLogMsg n m :: logs)
                (by simpa [noOtherErr] using hno.2) (by simpa using hlen)
              simp [do_cleanup_loop, this, collectDeleted, collectTraceLogs]
          | .error (.other m) => simp at hno

theorem do_cleanup_loop_panicked (rs : List DropResult) :
    ∀ (ns : List String) (acc logs : List String),
      noOtherErr (rs.take ns.length) = true → ns.length < rs.length →
      do_cleanup_loop rs ns acc logs = .panicked "got more results than expected" := by
  induction rs with
  | nil => intro ns acc logs _ hlen; simp at hlen
  | cons r rs ih =>
      intro ns acc logs hno hlen
      cases ns with
      | nil =>
          match r with
          | .ok () => rfl
          | .error (.database m) => rfl
          | .error (.other m) => rfl
      | cons n ns =>
          simp only [List.length_cons, List.take_succ_cons, noOtherErr, List.all_cons,
            Bool.and_eq_true] at hno hlen
          match r with
          | .ok () =>
              have := ih ns (n :: acc) logs (by simpa [noOtherErr] using hno.2) (by omega)
              simp [do_cleanup_loop, this]
          | .error (.database m) =>
              have := ih ns acc (traceLogMsg n m :: logs)
                (by simpa [noOtherErr] using hno.2) (by omega)
              simp [do_cleanup_loop, this]
          | .error (.other m) => simp at hno

theorem do_cleanup_loop_errored (pre : List DropResult) :
    ∀ (m : String) (rest : List DropResult) (ns : List String) (acc logs : List String),
      noOtherErr pre = true → pre.length < ns.length →
      ∃ ls, do_cleanup_loop (pre ++ .error (.other m) :: rest) ns acc logs
        = .errored (.other m) ls := by
  induction pre with
  | nil =>
      intro m rest ns acc logs _ hlen
      cases ns with
      | nil => simp at hlen
      | cons n ns => exact ⟨_, rfl⟩
  | cons r pre ih =>
      intro m rest ns acc logs hno hlen
      cases ns with
      | nil => simp at hlen
      | cons n ns =>
          simp only [noOtherErr, List.all_cons, Bool.and_eq_true] at hno
          match r with
          | .ok () =>
              have := ih m rest ns (n :: acc) logs (by simpa [noOtherErr] using hno.2)
                (by simpa using hlen)
              simpa [do_cleanup_loop] using this
          | .error (.database dm) =>
              have := ih m rest ns acc (traceLogMsg n dm :: logs)
                (by simpa [noOtherErr] using hno.2) (by simpa using hlen)
              simpa [do_cleanup_loop] using this
          | .error (.other om) => simp at hno

theorem selectCandidates_mem (table : TrackingTable) (epoch : Nat) (nm : String) :
    nm ∈ selectCandidates table epoch
      ↔ ∃ r, r ∈ table ∧ r.db_name = nm ∧ r.created_at < epoch := by
  simp only [selectCandidates, List.mem_map, List.mem_filter, decide_eq_true_eq]
  constructor
  · rintro ⟨r, ⟨hr, hlt⟩, hnm⟩; exact ⟨r, hr, hnm, hlt⟩
  · rintro ⟨r, hr, hnm, hlt⟩; exact ⟨r, ⟨hr, hlt⟩, hnm⟩

/-! Branch equations for `do_cleanup`, one per control path. -/

theorem do_cleanup_eq_empty (table : TrackingTable) (epoch : Nat) (env : CleanupEnv)
    (h : selectCandidates table epoch = []) :
    do_cleanup table epoch env
      = { outcome := .ok 0, table := table,
          stmts := [.selectCandidates epoch], logs := [] } := by
  unfold do_cleanup
  simp [h]

theorem do_cleanup_eq_finished (table : TrackingTable) (epoch : Nat) (env : CleanupEnv)
    (deleted logs : List String)
    (hne : selectCandidates table epoch ≠ [])
    (hloop : do_cleanup_loop env.dropResults (selectCandidates table epoch) [] []
      = .finished deleted logs)
    (hdel : env.deleteErr = none) :
    do_cleanup table epoch env
      = { outcome := .ok deleted.length,
          table := table.filter (fun r => !decide (r.db_name ∈ deleted)),
          stmts := Stmt.selectCandidates epoch
            :: (selectCandidates table epoch).map Stmt.dropDatabase
            ++ [.deleteTrackingRows deleted],
          logs := logs } := by
  have hemp : (selectCandidates table epoch).isEmpty = false := by
    cases hsc : selectCandidates table epoch with
    | nil => exact absurd hsc hne
    | cons a l => rfl
  unfold do_cleanup
  simp only [hemp, Bool.false_eq_true, if_false, hloop, hdel]

theorem do_cleanup_eq_finished_delErr (table : TrackingTable) (epoch : Nat)
    (env : CleanupEnv) (deleted logs : List String) (e : SqlxError)
    (hne : selectCandidates table epoch ≠ [])
    (hloop : do_cleanup_loop env.dropResults (selectCandidates table epoch) [] []
      = .finished deleted logs)
    (hdel : env.deleteErr = some e) :
    do_cleanup table epoch env
      = { outcome := .err e, table := table,
          stmts := Stmt.selectCandidates epoch
            :: (selectCandidates table epoch).map Stmt.dropDatabase
            ++ [.deleteTrackingRows deleted],
          logs := logs } := by
  have hemp : (selectCandidates table epoch).isEmpty = false := by
    cases hsc : selectCandidates table epoch with
    | nil => exact absurd hsc hne
    | cons a l => rfl
  unfold do_cleanup
  simp only [hemp, Bool.false_eq_true, if_false, hloop, hdel]

theorem do_cleanup_eq_errored (table : TrackingTable) (epoch : Nat) (env : CleanupEnv)
    (e : SqlxError) (logs : List String)
    (hne : selectCandidates table epoch ≠ [])
    (hloop : do_cleanup_loop env.dropResults (selectCandidates table epoch) [] []
      = .errored e logs) :
    do_cleanup table epoch env
      = { outcome := .err e, table := table,
          stmts := Stmt.selectCandidates epoch
            :: (selectCandidates table epoch).map Stmt.dropDatabase,
          logs := logs } := by
  have hemp : (selectCandidates table epoch).isEmpty = false := by
    cases hsc : selectCandidates table epoch with
    | nil => exact absurd hsc hne
    | cons a l => rfl
  unfold do_cleanup
  simp only [hemp, Bool.false_eq_true, if_false, hloop]

theorem do_cleanup_eq_panicked (table : TrackingTable) (epoch : Nat) (env : CleanupEnv)
    (msg : String)
    (hne : selectCandidates table epoch ≠ [])
    (hloop : do_cleanup_loop env.dropResults (selectCandidates table epoch) [] []
      = .panicked msg) :
    do_cleanup table epoch env
      = { outcome := .panic msg, table := table,
          stmts := Stmt.selectCandidates epoch
            :: (selectCandidates table epoch).map Stmt.dropDatabase,
          logs := [] } := by
  have hemp : (selectCandidates table epoch).isEmpty = false := by
    cases hsc : selectCandidates table epoch with
    | nil => exact absurd hsc hne
    | cons a l => rfl
  unfold do_cleanup
  simp only [hemp, Bool.false_eq_true, if_false, hloop]

theorem do_cleanup_drop_mem (table : TrackingTable) (epoch : Nat) (env : CleanupEnv)
    (nm : String) (h : Stmt.dropDatabase nm ∈ (do_cleanup table epoch env).stmts) :
    nm ∈ selectCandidates table epoch := by
  by_cases hne : selectCandidates table epoch = []
  · rw [do_cleanup_eq_empty table epoch env hne] at h
    simp at h
  · cases hloop : do_cleanup_loop env.dropResults (selectCandidates table epoch) [] [] with
    | finished deleted logs =>
        cases hdel : env.deleteErr with
        | none =>
            rw [do_cleanup_eq_finished table epoch env deleted logs hne hloop hdel] at h
            simpa using h
        | some e =>
            rw [do_cleanup_eq_finished_delErr table epoch env deleted logs e hne hloop hdel] at h
            simpa using h
    | errored e logs =>
        rw [do_cleanup_eq_errored table epoch env e logs hne hloop] at h
        simpa using h
    | panicked msg =>
        rw [do_cleanup_eq_panicked table epoch env msg hne hloop] at h
        simpa using h

theorem do_cleanup_select_epoch (table : TrackingTable) (epoch : Nat) (env : CleanupEnv)
    (e : Nat) (h : Stmt.selectCandidates e ∈ (do_cleanup table epoch env).stmts) :
    e = epoch := by
  by_cases hne : selectCandidates table epoch = []
  · rw [do_cleanup_eq_empty table epoch env hne] at h
    simp at h
    exact h
  · cases hloop : do_cleanup_loop env.dropResults (selectCandidates table epoch) [] [] with
    | finished deleted logs =>
        cases hdel : env.deleteErr with
        | none =>
            rw [do_cleanup_eq_finished table epoch env deleted logs hne hloop hdel] at h
            simp at h
            tauto
        | some e2 =>
            rw [do_cleanup_eq_finished_delErr table epoch env deleted logs e2 hne hloop hdel] at h
            simp at h
            tauto
    | errored e2 logs =>
        rw [do_cleanup_eq_errored table epoch env e2 logs hne hloop] at h
        simp at h
        tauto
    | panicked msg =>
        rw [do_cleanup_eq_panicked table epoch env msg hne hloop] at h
        simp at h
        tauto

/-- No branch of the reaper issues the provisioner's insert statement. -/
theorem do_cleanup_no_insert (table : TrackingTable) (epoch : Nat) (env : CleanupEnv) :
    ((do_cleanup table epoch env).stmts.all fun s => !isInsertStmt s) = true := by
  by_cases hne : selectCandidates table epoch = []
  · rw [do_cleanup_eq_empty table epoch env hne]
    simp [isInsertStmt]
  · cases hloop : do_cleanup_loop env.dropResults (selectCandidates table epoch) [] [] with
    | finished deleted logs =>
        cases hdel : env.deleteErr with
        | none =>
            rw [do_cleanup_eq_finished table epoch env deleted logs hne hloop hdel]
            simp [isInsertStmt, List.all_eq_true]
        | some e =>
            rw [do_cleanup_eq_finished_delErr table epoch env deleted logs e hne hloop hdel]
            simp [isInsertStmt, List.all_eq_true]
    | errored e logs =>
        rw [do_cleanup_eq_errored table epoch env e logs hne hloop]
        simp [isInsertStmt, List.all_eq_true]
    | panicked msg =>
        rw [do_cleanup_eq_panicked table epoch env msg hne hloop]
        simp [isInsertStmt, List.all_eq_true]

/-! Structural lemmas about `test_context`. -/

/-- Every `test_context` call either succeeds — handing out the name built
from the next sequence value and advancing the sequence — or leaves the
sequence untouched. -/
theorem test_context_cases (st : ProcessState) (now : Nat) (mo : PgConnectOptions)
    (tp : String) (env : TestContextEnv) :
    (∃ c, (test_context st now mo tp env).outcome = .ok c ∧
        c.db_name = newDbName (st.seq + 1) ∧
        (test_context st now mo tp env).state.seq = st.seq + 1) ∨
    ((∀ c, (test_context st now mo tp env).outcome ≠ .ok c) ∧
        (test_context st now mo tp env).state.seq = st.seq) := by
  unfold test_context
  cases h1 : tryInsertMaster st.masterPool mo with
  | panic m => simp
  | ok master =>
    dsimp only
    cases h2 : env.acquireErr with
    | some e => simp
    | none =>
      dsimp only
      cases h3 : env.schemaErr with
      | some e => simp
      | none =>
        dsimp only
        cases hco : (do_cleanup st.table (st.startTime.getD now) env.cleanup).outcome with
        | err e => simp
        | panic m => simp
        | ok k =>
          dsimp only
          cases h4 : env.insertErr with
          | some e => simp
          | none => left; exact ⟨_, rfl, rfl, rfl⟩

/-- Inversion of a successful `test_context` call: the exact result record,
in terms of the inputs. -/
theorem test_context_ok_inv (st : ProcessState) (now : Nat) (mo : PgConnectOptions)
    (tp : String) (env : TestContextEnv) (ctx : TestContext)
    (h : (test_context st now mo tp env).outcome = .ok ctx) :
    ∃ master k,
      tryInsertMaster st.masterPool mo = .ok master ∧
      (do_cleanup st.table (st.startTime.getD now) env.cleanup).outcome = .ok k ∧
      ctx = { pool_opts := testPoolOptions,
              connect_opts := master.connect_options.setDatabase (newDbName (st.seq + 1)),
              db_name := newDbName (st.seq + 1) } ∧
      test_context st now mo tp env =
        { outcome := .ok ctx,
          state := { masterPool := some master,
                     startTime := some (st.startTime.getD now),
                     seq := st.seq + 1,
                     table := (do_cleanup st.table (st.startTime.getD now) env.cleanup).table
                       ++ [{ db_name := newDbName (st.seq + 1), test_path := tp,
                             created_at := now }] },
          stmts := Stmt.createSchema
            :: (do_cleanup st.table (st.startTime.getD now) env.cleanup).stmts
            ++ [.insertTestDatabase (newDbName (st.seq + 1)) tp] } := by
  unfold test_context at h
  cases h1 : tryInsertMaster st.masterPool mo with
  | panic m => rw [h1] at h; simp at h
  | ok master =>
    rw [h1] at h
    dsimp only at h
    cases h2 : env.acquireErr with
    | some e => rw [h2] at h; simp at h
    | none =>
      rw [h2] at h
      dsimp only at h
      cases h3 : env.schemaErr with
      | some e => rw [h3] at h; simp at h
      | none =>
        rw [h3] at h
        dsimp only at h
        cases hco : (do_cleanup st.table (st.startTime.getD now) env.cleanup).outcome with
        | err e => rw [hco] at h; simp at h
        | panic m => rw [hco] at h; simp at h
        | ok k =>
          rw [hco] at h
          dsimp only at h
          cases h4 : env.insertErr with
          | some e => rw [h4] at h; simp at h
          | none =>
            rw [h4] at h
            dsimp only at h
            simp only [Outcome.ok.injEq] at h
            refine ⟨master, k, rfl, rfl, h.symm, ?_⟩
            unfold test_context
            rw [h1]
            dsimp only
            rw [h2]
            dsimp only
            rw [h3]
            dsimp only
            rw [hco]
            dsimp only
            rw [h4]
            dsimp only
            rw [← h]

/-- The `START_TIME` lazy cell: a `test_context` call either leaves it
unchanged or — when it was still empty — fills it with the call's current
time. -/
theorem test_context_startTime_cases (st : ProcessState) (now : Nat)
    (mo : PgConnectOptions) (tp : String) (env : TestContextEnv) :
    (test_context st now mo tp env).state.startTime = st.startTime ∨
    (st.startTime = none ∧ (test_context st now mo tp env).state.startTime = some now) := by
  unfold test_context
  cases h1 : tryInsertMaster st.masterPool mo with
  | panic m => simp
  | ok master =>
    dsimp only
    cases h2 : env.acquireErr with
    | some e => simp
    | none =>
      dsimp only
      cases h3 : env.schemaErr with
      | some e => simp
      | none =>
        dsimp only
        cases hst : st.startTime with
        | some t =>
            cases hco : (do_cleanup st.table ((Option.some t).getD now) env.cleanup).outcome with
            | err e => simp [hst]
            | panic m => simp [hst]
            | ok k =>
                dsimp only
                cases h4 : env.insertErr with
                | some e => simp [hst]
                | none => simp [hst]
        | none =>
            cases hco : (do_cleanup st.table ((Option.none : Option Nat).getD now) env.cleanup).outcome with
            | err e => simp [hst]
            | panic m => simp [hst]
            | ok k =>
                dsimp only
                cases h4 : env.insertErr with
                | some e => simp [hst]
                | none => simp [hst]

/-- Every candidate `select` a `test_context` call issues uses
`*START_TIME` — the cell's value, or the call's current time when the call
is the one that fills it — as its cutoff. -/
theorem test_context_epochs (st : ProcessState) (now : Nat) (mo : PgConnectOptions)
    (tp : String) (env : TestContextEnv) :
    ∀ e, Stmt.selectCandidates e ∈ (test_context st now mo tp env).stmts →
      e = st.startTime.getD now := by
  unfold test_context
  cases h1 : tryInsertMaster st.masterPool mo with
  | panic m => simp
  | ok master =>
    dsimp only
    cases h2 : env.acquireErr with
    | some e => simp
    | none =>
      dsimp only
      cases h3 : env.schemaErr with
      | some e => simp [Stmt.selectCandidates, isInsertStmt]
      | none =>
        dsimp only
        cases hco : (do_cleanup st.table (st.startTime.getD now) env.cleanup).outcome with
        | err e =>
            intro e2 he2
            simp at he2
            exact do_cleanup_select_epoch _ _ _ _ he2
        | panic m =>
            intro e2 he2
            simp at he2
            exact do_cleanup_select_epoch _ _ _ _ he2
        | ok k =>
            dsimp only
            cases h4 : env.insertErr with
            | some e =>
                intro e2 he2
                simp at he2
                exact do_cleanup_select_epoch _ _ _ _ he2
            | none =>
                intro e2 he2
                simp at he2
                exact do_cleanup_select_epoch _ _ _ _ he2

theorem runDbNames_cons_ok (r : TestContextResult) (l : List TestContextResult)
    (ctx : TestContext) (h : r.outcome = .ok ctx) :
    runDbNames (r :: l) = ctx.db_name :: runDbNames l := by
  simp [runDbNames, List.filterMap_cons, h]

theorem runDbNames_cons_notok (r : TestContextResult) (l : List TestContextResult)
    (h : ∀ c, r.outcome ≠ .ok c) :
    runDbNames (r :: l) = runDbNames l := by
  cases hr : r.outcome with
  | ok c => exact absurd hr (h c)
  | err e => simp [runDbNames, List.filterMap_cons, hr]
  | panic m => simp [runDbNames, List.filterMap_cons, hr]

/-- Names handed out by a run of provisioning calls: each is `newDbName k`
for a sequence value strictly above the starting one, and they are pairwise
distinct. -/
theorem runDbNames_spec (calls : List TcCall) :
    ∀ st : ProcessState,
      (∀ nm ∈ runDbNames (test_context_runs st calls).1,
        ∃ k, st.seq < k ∧ nm = newDbName k) ∧
      (runDbNames (test_context_runs st calls).1).Nodup := by
  induction calls with
  | nil => intro st; simp [test_context_runs, runDbNames]
  | cons c cs ih =>
      intro st
      have hrun : (test_context_runs st (c :: cs)).1
          = test_context st c.now c.master_opts c.test_path c.env
            :: (test_context_runs
                (test_context st c.now c.master_opts c.test_path c.env).state cs).1 := rfl
      have hseqmono :
          st.seq ≤ (test_context st c.now c.master_opts c.test_path c.env).state.seq := by
        rcases test_context_cases st c.now c.master_opts c.test_path c.env with
          ⟨ctx, _, _, hseq⟩ | ⟨_, hseq⟩ <;> omega
      have ihrest := ih (test_context st c.now c.master_opts c.test_path c.env).state
      rcases test_context_cases st c.now c.master_opts c.test_path c.env with
        ⟨ctx, hok, hname, hseq⟩ | ⟨hnotok, hseq⟩
      · rw [hrun, runDbNames_cons_ok _ _ ctx hok]
        constructor
        · intro nm hnm
          rcases List.mem_cons.mp hnm with hhd | htl
          · exact ⟨st.seq + 1, by omega, hhd.trans hname⟩
          · rcases ihrest.1 nm htl with ⟨k, hk, hnmk⟩
            exact ⟨k, by omega, hnmk⟩
        · refine List.nodup_cons.mpr ⟨?_, ihrest.2⟩
          intro hmem
          rcases ihrest.1 ctx.db_name hmem with ⟨k, hk, hnmk⟩
          rw [hseq] at hk
          have : st.seq + 1 = k := newDbName_inj (by rw [← hname, ← hnmk])
          omega
      · rw [hrun, runDbNames_cons_notok _ _ hnotok]
        rw [hseq] at ihrest
        exact ihrest

/-- Once the cell holds a pool, every later access either panics or returns
exactly that pool, and the cell never changes. -/
theorem registryRun_from_some (os : List PgConnectOptions) :
    ∀ p : Pool, (registryRun (some p) os).1 = some p ∧
      ((registryRun (some p) os).2.all fun r =>
        match r with
        | .ok q => decide (q = p)
        | .panic _ => true) = true := by
  induction os with
  | nil => intro p; simp [registryRun]
  | cons o os ih =>
      intro p
      unfold registryRun tryInsertMaster
      by_cases hh : p.connect_options.host ≠ (mkMasterPool o).connect_options.host
      · simp [hh]
      · by_cases hd : p.connect_options.database ≠ (mkMasterPool o).connect_options.database
        · simp [hh, hd]
        · simpa [hh, hd] using ih p

/-- All-success run of the fixture loop: every fixture is applied, in
declared order. -/
theorem applyFixturesLoop_all_ok (fails : String → Bool) (fs : List TestFixture) :
    ∀ db : List DbAction,
      (fs.all fun f => !fails f.contents) = true →
      applyFixturesLoop fails db fs
        = (db ++ fs.map (fun f => .fixtureApplied f.path), none) := by
  induction fs with
  | nil => intro db _; simp [applyFixturesLoop]
  | cons f fs ih =>
      intro db hall
      simp only [List.all_cons, Bool.and_eq_true] at hall
      have hf : fails f.contents = false := by simpa using hall.1
      unfold applyFixturesLoop
      rw [hf]
      simp only [Bool.false_eq_true, if_false]
      rw [ih _ hall.2]
      simp

/-- First-failure run of the fixture loop: the fixtures before the first
failing one are applied in order, the failing fixture's path is reported,
and nothing after it is touched. -/
theorem applyFixturesLoop_first_fail (fails : String → Bool) (pre : List TestFixture) :
    ∀ (f : TestFixture) (post : List TestFixture) (db : List DbAction),
      (pre.all fun g => !fails g.contents) = true →
      fails f.contents = true →
      applyFixturesLoop fails db (pre ++ f :: post)
        = (db ++ pre.map (fun g => .fixtureApplied g.path), some f.path) := by
  induction pre with
  | nil =>
      intro f post db _ hf
      unfold applyFixturesLoop
      simp only [List.nil_append]
      rw [hf]
      simp
  | cons g pre ih =>
      intro f post db hall hf
      simp only [List.all_cons, Bool.and_eq_true] at hall
      have hg : fails g.contents = false := by simpa using hall.1
      unfold applyFixturesLoop
      simp only [List.cons_append]
      rw [hg]
      simp only [Bool.false_eq_true, if_false]
      rw [ih f post _ hall.2 hf]
      simp

/-- Epoch fixedness across a run: once `START_TIME` holds `t`, every
candidate `select` issued by any call of the run uses cutoff `t`, and the
cell still holds `t` afterwards. -/
theorem test_context_runs_epochs (calls : List TcCall) :
    ∀ (st : ProcessState) (t : Nat), st.startTime = some t →
      (test_context_runs st calls).2.startTime = some t ∧
      (((test_context_runs st calls).1).all fun r =>
        r.stmts.all fun s =>
          match s with
          | .selectCandidates e => decide (e = t)
          | _ => true) = true := by
  induction calls with
  | nil => intro st t h; simpa [test_context_runs] using h
  | cons c cs ih =>
      intro st t h
      have hepoch := test_context_epochs st c.now c.master_opts c.test_path c.env
      have hstc := test_context_startTime_cases st c.now c.master_opts c.test_path c.env
      have hst2 : (test_context st c.now c.master_opts c.test_path c.env).state.startTime
          = some t := by
        rcases hstc with h1 | ⟨h1, _⟩
        · rw [h1, h]
        · rw [h1] at h; exact absurd h (by simp)
      have ihrest := ih (test_context st c.now c.master_opts c.test_path c.env).state t hst2
      refine ⟨ihrest.1, ?_⟩
      have hhead : ((test_context st c.now c.master_opts c.test_path c.env).stmts.all fun s =>
          match s with
          | Stmt.selectCandidates e => decide (e = t)
          | _ => true) = true := by
        rw [List.all_eq_true]
        intro s hs
        cases s with
        | selectCandidates e =>
            have := hepoch e hs
            rw [h] at this
            simp [this]
        | createSchema => rfl
        | dropDatabase n => rfl
        | deleteTrackingRows ns => rfl
        | deleteTrackingRow n => rfl
        | insertTestDatabase n tp => rfl
      have hrun : (test_context_runs st (c :: cs)).1
          = test_context st c.now c.master_opts c.test_path c.env
            :: (test_context_runs
                (test_context st c.now c.master_opts c.test_path c.env).state cs).1 := rfl
      rw [hrun, List.all_cons, hhead, ihrest.2]
      rfl

/-- Is this parse result an `Ok`? -/
def exceptIsOk : Except String Args → Bool
  | .ok _ => true
  | .error _ => false

/-- `parse_args` never accepts an argument list containing an unrecognized
option: the loop fails at or before it. -/
theorem parse_args_loop_ok_no_other (args : List AttrArg) :
    ∀ (fixtures : List String) (migrations : MigrationsOpt),
      exceptIsOk (parse_args_loop fixtures migrations args) = true →
      AttrArg.otherArg ∉ args := by
  induction args with
  | nil => intro fixtures migrations _; simp
  | cons a rest ih =>
      intro fixtures migrations h
      cases a with
      | fixturesList items =>
          unfold parse_args_loop at h
          by_cases hfx : fixtures ≠ []
          · rw [if_pos hfx] at h
            simp [exceptIsOk] at h
          · rw [if_neg hfx] at h
            cases hpi : parseFixtureItems items with
            | error e => rw [hpi] at h; simp [exceptIsOk] at h
            | ok new =>
                rw [hpi] at h
                simp only [List.mem_cons, not_or]
                exact ⟨by simp, ih _ _ h⟩
      | migrationsNameValue l =>
          unfold parse_args_loop at h
          cases migrations with
          | explicitPath p => simp [exceptIsOk] at h
          | disabled => simp [exceptIsOk] at h
          | inferredPath =>
              cases l with
              | str s =>
                  simp only [List.mem_cons, not_or]
                  exact ⟨by simp, ih _ _ h⟩
              | boolean b =>
                  cases b with
                  | true => simp [exceptIsOk] at h
                  | false =>
                      simp only [List.mem_cons, not_or]
                      exact ⟨by simp, ih _ _ h⟩
              | int n => simp [exceptIsOk] at h
              | otherLit => simp [exceptIsOk] at h
      | otherArg =>
          unfold parse_args_loop at h
          simp [exceptIsOk] at h

/-! ## Claim theorems -/

/-- Claim C2: for every tracking-table state and epoch, a reaper pass
selects as drop candidates exactly the tracked names with
`created_at < epoch` — so every `drop database` statement it issues targets
a name whose tracked row predates the epoch, and none is issued for a row
created at or after it — and when the candidate set is empty it returns 0
immediately, issuing only the candidate select, leaving the table untouched
and logging nothing. -/
theorem claim_C2_reaper_cutoff (table : TrackingTable) (epoch : Nat)
    (env : CleanupEnv) (nm : String) :
    ((do_cleanup table epoch env).stmts.all fun s =>
        match s with
        | .dropDatabase n =>
            decide (∃ r, r ∈ table ∧ r.db_name = n ∧ r.created_at < epoch)
        | _ => true) = true
    ∧ (nm ∈ selectCandidates table epoch
        ↔ ∃ r, r ∈ table ∧ r.db_name = nm ∧ r.created_at < epoch)
    ∧ (selectCandidates table epoch = [] →
        do_cleanup table epoch env
          = { outcome := .ok 0, table := table,
              stmts := [.selectCandidates epoch], logs := [] }) := by
  refine ⟨?_, selectCandidates_mem table epoch nm, do_cleanup_eq_empty table epoch env⟩
  rw [List.all_eq_true]
  intro s hs
  cases s with
  | dropDatabase n =>
      simp only [decide_eq_true_eq]
      exact (selectCandidates_mem table epoch n).mp (do_cleanup_drop_mem table epoch env n hs)
  | createSchema => rfl
  | selectCandidates e => rfl
  | deleteTrackingRows ns => rfl
  | deleteTrackingRow n => rfl
  | insertTestDatabase n tp => rfl

/-- Claim C2, witnessed at a concrete table, epoch and environment. -/
theorem claim_C2_witness :
    ((do_cleanup [⟨"__sqlx_test_7", "p", 3⟩, ⟨"__sqlx_test_8", "p", 9⟩] 5
        { dropResults := [.ok ()], deleteErr := none }).stmts.all fun s =>
      match s with
      | .dropDatabase n =>
          decide (∃ r, r ∈ ([⟨"__sqlx_test_7", "p", 3⟩,
            ⟨"__sqlx_test_8", "p", 9⟩] : TrackingTable) ∧ r.db_name = n ∧ r.created_at < 5)
      | _ => true) = true
    ∧ (selectCandidates [] 5 = [] →
        do_cleanup [] 5 { dropResults := [.ok ()], deleteErr := none }
          = { outcome := .ok 0, table := [],
              stmts := [.selectCandidates 5], logs := [] }) :=
  ⟨(claim_C2_reaper_cutoff [⟨"__sqlx_test_7", "p", 3⟩, ⟨"__sqlx_test_8", "p", 9⟩] 5
      { dropResults := [.ok ()], deleteErr := none } "x").1,
   (claim_C2_reaper_cutoff [] 5 { dropResults := [.ok ()], deleteErr := none } "x").2.2⟩

/-- Claim C3: across any sequence of master-pool registry accesses in one
process, the pool installed by the first access is the only one ever
retained (the cell holds it forever, and every successful access returns
exactly it), and any later access is compared field-by-field against it:
a host or database mismatch is an `assert_eq!` panic — not an `Err` — while
identical options yield the retained pool. -/
theorem claim_C3_master_pool_registry (o0 o : PgConnectOptions)
    (os : List PgConnectOptions) :
    (registryRun none (o0 :: os)).1 = some (mkMasterPool o0)
    ∧ (registryRun none (o0 :: os)).2.head? = some (.ok (mkMasterPool o0))
    ∧ ((registryRun none (o0 :: os)).2.all fun r =>
        match r with
        | .ok p => decide (p = mkMasterPool o0)
        | .panic _ => true) = true
    ∧ tryInsertMaster (some (mkMasterPool o0)) o
      = (if o0.host ≠ o.host
         then .panic "DATABASE_URL changed at runtime, host differs"
         else if o0.database ≠ o.database
         then .panic "DATABASE_URL changed at runtime, database differs"
         else .ok (mkMasterPool o0)) := by
  have hrun : registryRun none (o0 :: os)
      = ((registryRun (some (mkMasterPool o0)) os).1,
          .ok (mkMasterPool o0) :: (registryRun (some (mkMasterPool o0)) os).2) := rfl
  have hsome := registryRun_from_some os (mkMasterPool o0)
  refine ⟨?_, ?_, ?_, ?_⟩
  · rw [hrun]; exact hsome.1
  · rw [hrun]; rfl
  · rw [hrun, List.all_cons, hsome.2]
    simp
  · rfl

/-- Claim C3, witnessed at concrete option sequences: the first caller's
pool is retained, an identical second call returns it, and a
database-mismatching third call panics. -/
theorem claim_C3_witness :
    (registryRun none [⟨"db.example", "master"⟩]).1
      = some (mkMasterPool ⟨"db.example", "master"⟩)
    ∧ tryInsertMaster (some (mkMasterPool ⟨"db.example", "master"⟩)) ⟨"db.example", "master"⟩
      = (if ("db.example" : String) ≠ "db.example"
         then .panic "DATABASE_URL changed at runtime, host differs"
         else if ("master" : String) ≠ "master"
         then .panic "DATABASE_URL changed at runtime, database differs"
         else .ok (mkMasterPool ⟨"db.example", "master"⟩)) :=
  ⟨(claim_C3_master_pool_registry ⟨"db.example", "master"⟩ ⟨"db.example", "master"⟩ []).1,
   (claim_C3_master_pool_registry ⟨"db.example", "master"⟩ ⟨"db.example", "master"⟩ []).2.2.2⟩

/-- Claim C5 counterexample: the very first database name the provisioner
returns is `__sqlx_test_1` — it does not carry the prefix `__test_` the
claim states, and it differs from `__test_` followed by the sequence
value. -/
theorem claim_C5_cex :
    (test_context ProcessState.initial 0 ⟨"localhost", "postgres"⟩ "crate::mytest"
        TestContextEnv.quiet).outcome
      = .ok { pool_opts := testPoolOptions,
              connect_opts := ⟨"localhost", "__sqlx_test_1"⟩,
              db_name := "__sqlx_test_1" }
    ∧ ("__sqlx_test_1" : String).take 7 ≠ "__test_"
    ∧ ("__sqlx_test_1" : String) ≠ "__test_" ++ natToText 1 := by
  decide

/-- Claim C6 (code bug): the per-test pool profile returned by the
provisioner has connection ceiling 50 — *larger* than the master pool's
ceiling of 20, not smaller as specified — while the rest of the profile
matches the claim: a 1-second idle timeout, parented to the master pool,
and connect options pointing at the newly allocated database name. -/
theorem claim_C6_pool_profile :
    (test_context ProcessState.initial 7 ⟨"ci-host", "master_db"⟩ "crate::pool_test"
        TestContextEnv.quiet).outcome
      = .ok { pool_opts := testPoolOptions,
              connect_opts := ⟨"ci-host", "__sqlx_test_1"⟩,
              db_name := "__sqlx_test_1" }
    ∧ testPoolOptions.max_connections = some 50
    ∧ masterPoolOptions.max_connections = some 20
    ∧ testPoolOptions.idle_timeout = some 1
    ∧ testPoolOptions.parentIsMaster = true
    ∧ ¬ (testPoolOptions.max_connections.getD 0
          < masterPoolOptions.max_connections.getD 0) := by
  decide

/-- Claim C9 counterexample: a `fixtures()` option with an empty list
followed by a second `fixtures("a")` option is *accepted* by `parse_args` —
the duplicate-option check (`!fixtures.is_empty()`) does not fire when the
first occurrence contributed no fixture — contradicting the claim that a
duplicate `fixtures` option is always rejected. -/
theorem claim_C9_cex :
    parse_args [.fixturesList [], .fixturesList [.lit (.str "a")]]
      = .ok { fixtures := ["a"], migrations := .inferredPath }
    ∧ exceptIsOk (parse_args [.fixturesList [], .fixturesList [.lit (.str "a")]])
      = true :=
  ⟨rfl, rfl⟩

/-- Claim C10: calling `cleanup_test` before the master pool has ever been
initialized panics with the source's "invoked outside `#[sqlx::test]`"
message — it neither returns an `Err` nor issues any database statement,
and the process state is untouched. -/
theorem claim_C10_cleanup_outside_harness (st : ProcessState) (db_name : String)
    (execErr : Option SqlxError) (h : st.masterPool = none) :
    cleanup_test st db_name execErr
      = (.panic "cleanup_test() invoked outside `#[sqlx::test]", st, []) := by
  unfold cleanup_test
  rw [h]

/-- Claim C10, witnessed on the fresh process state. -/
theorem claim_C10_witness :
    cleanup_test ProcessState.initial "__sqlx_test_3" none
      = (.panic "cleanup_test() invoked outside `#[sqlx::test]",
          ProcessState.initial, []) :=
  claim_C10_cleanup_outside_harness ProcessState.initial "__sqlx_test_3" none rfl

/-- Reduction of `run_test` when context resolution succeeds. -/
theorem run_test_ok {R : Type} (success : R → Bool) (st : ProcessState) (now : Nat)
    (mo : PgConnectOptions) (tp : String) (env : TestContextEnv)
    (cleanupErr : Option SqlxError) (test_fn : PoolOptionsModel → PgConnectOptions → R)
    (ctx : TestContext) (h : (test_context st now mo tp env).outcome = .ok ctx) :
    run_test success st now (some mo) tp env cleanupErr test_fn
      = (if success (test_fn ctx.pool_opts ctx.connect_opts) then
           match cleanup_test (test_context st now mo tp env).state ctx.db_name cleanupErr with
           | (.panic m, st2, stmts) =>
               { outcome := .panic m, state := st2, cleanupStmts := stmts, cleanupRan := true }
           | (_, st2, stmts) =>
               { outcome := .ok (test_fn ctx.pool_opts ctx.connect_opts), state := st2,
                 cleanupStmts := stmts, cleanupRan := true }
         else
           { outcome := .ok (test_fn ctx.pool_opts ctx.connect_opts),
             state := (test_context st now mo tp env).state,
             cleanupStmts := [], cleanupRan := false }) := by
  unfold run_test
  dsimp only
  rw [h]

/-- Claim C1: for every dispatched test whose context resolution succeeded,
the cleanup step runs if and only if the body's outcome satisfies
`is_success`; on a failing body neither the `drop database` nor the
tracking-row delete is issued and the process state is untouched; and the
test's own outcome is the body's result regardless of whether cleanup
succeeds or returns an error (`if let Err(e) = .. {}` swallows it). -/
theorem claim_C1_cleanup_iff_success {R : Type} (success : R → Bool)
    (st : ProcessState) (now : Nat) (mo : PgConnectOptions) (tp : String)
    (env : TestContextEnv) (cleanupErr : Option SqlxError)
    (test_fn : PoolOptionsModel → PgConnectOptions → R) (ctx : TestContext)
    (h : (test_context st now mo tp env).outcome = .ok ctx) :
    (run_test success st now (some mo) tp env cleanupErr test_fn).cleanupRan
      = success (test_fn ctx.pool_opts ctx.connect_opts)
    ∧ (run_test success st now (some mo) tp env cleanupErr test_fn).outcome
      = .ok (test_fn ctx.pool_opts ctx.connect_opts)
    ∧ (run_test success st now (some mo) tp env cleanupErr test_fn).cleanupStmts
      = (if success (test_fn ctx.pool_opts ctx.connect_opts)
         then [.dropDatabase ctx.db_name, .deleteTrackingRow ctx.db_name]
         else [])
    ∧ (run_test success st now (some mo) tp env cleanupErr test_fn).state
      = (if success (test_fn ctx.pool_opts ctx.connect_opts)
         then (cleanup_test (test_context st now mo tp env).state ctx.db_name cleanupErr).2.1
         else (test_context st now mo tp env).state) := by
  obtain ⟨master, k, hreg, hcln, hctx, htc⟩ := test_context_ok_inv st now mo tp env ctx h
  rw [run_test_ok success st now mo tp env cleanupErr test_fn ctx h]
  by_cases hs : success (test_fn ctx.pool_opts ctx.connect_opts)
  · rw [hs]
    simp only [if_true]
    rw [htc]
    unfold cleanup_test
    dsimp only
    cases cleanupErr with
    | none => simp
    | some e => simp
  · rw [Bool.not_eq_true] at hs
    rw [hs]
    simp

/-- Claim C1, witnessed on a concrete successful body whose cleanup
errors: cleanup ran, and the error left the test's outcome untouched. -/
theorem claim_C1_witness :
    (run_test (fun b : Bool => b) ProcessState.initial 4 (some ⟨"h", "pg"⟩) "crate::t"
        TestContextEnv.quiet (some (.other "connection reset")) (fun _ _ => true)).cleanupRan
      = true
    ∧ (run_test (fun b : Bool => b) ProcessState.initial 4 (some ⟨"h", "pg"⟩) "crate::t"
        TestContextEnv.quiet (some (.other "connection reset")) (fun _ _ => true)).outcome
      = .ok true := by
  have h := claim_C1_cleanup_iff_success (fun b : Bool => b) ProcessState.initial 4
      ⟨"h", "pg"⟩ "crate::t" TestContextEnv.quiet (some (.other "connection reset"))
      (fun _ _ => true)
      { pool_opts := testPoolOptions,
        connect_opts := ⟨"h", "__sqlx_test_1"⟩,
        db_name := "__sqlx_test_1" }
      (by decide)
  exact ⟨h.1, h.2.1⟩

/-- Claim C4: with a non-empty candidate list, the reaper sends one
`drop database` per candidate in candidate order; its per-statement results
are consumed positionally (result `i` attributed to candidate `i`, via
`collectDeleted`/`collectTraceLogs`): a database-level error only skips its
candidate with a trace log, any other error aborts the pass and propagates,
more results than candidates is a panic, and on completion the tracking rows
of exactly the successfully dropped names are deleted in one statement with
their count returned. -/
theorem claim_C4_reaper_result_consumption (table : TrackingTable) (epoch : Nat)
    (results pre rest : List DropResult) (m : String)
    (hne : selectCandidates table epoch ≠ []) :
    (do_cleanup table epoch { dropResults := results, deleteErr := none }).stmts.take
        ((selectCandidates table epoch).length + 1)
      = Stmt.selectCandidates epoch
          :: (selectCandidates table epoch).map Stmt.dropDatabase
    ∧ ((noOtherErr results && decide (results.length ≤ (selectCandidates table epoch).length))
        = true →
      do_cleanup table epoch { dropResults := results, deleteErr := none }
        = { outcome := .ok (collectDeleted results (selectCandidates table epoch)).length,
            table := table.filter (fun r =>
              !decide (r.db_name ∈ collectDeleted results (selectCandidates table epoch))),
            stmts := Stmt.selectCandidates epoch
              :: (selectCandidates table epoch).map Stmt.dropDatabase
              ++ [.deleteTrackingRows (collectDeleted results (selectCandidates table epoch))],
            logs := collectTraceLogs results (selectCandidates table epoch) })
    ∧ ((noOtherErr (results.take (selectCandidates table epoch).length)
          && decide ((selectCandidates table epoch).length < results.length)) = true →
      do_cleanup table epoch { dropResults := results, deleteErr := none }
        = { outcome := .panic "got more results than expected", table := table,
            stmts := Stmt.selectCandidates epoch
              :: (selectCandidates table epoch).map Stmt.dropDatabase,
            logs := [] })
    ∧ ((decide (results = pre ++ .error (.other m) :: rest) && noOtherErr pre
          && decide (pre.length < (selectCandidates table epoch).length)) = true →
      (do_cleanup table epoch { dropResults := results, deleteErr := none }).outcome
          = .err (.other m)
        ∧ (do_cleanup table epoch { dropResults := results, deleteErr := none }).table = table
        ∧ (do_cleanup table epoch { dropResults := results, deleteErr := none }).stmts
          = Stmt.selectCandidates epoch
              :: (selectCandidates table epoch).map Stmt.dropDatabase) := by
  have hlen : ((selectCandidates table epoch).map Stmt.dropDatabase).length
      = (selectCandidates table epoch).length := List.length_map _ _
  have htake : ∀ tail : List Stmt,
      (Stmt.selectCandidates epoch
          :: ((selectCandidates table epoch).map Stmt.dropDatabase ++ tail)).take
        ((selectCandidates table epoch).length + 1)
      = Stmt.selectCandidates epoch
          :: (selectCandidates table epoch).map Stmt.dropDatabase := by
    intro tail
    rw [List.take_succ_cons, ← hlen, List.take_left]
  have htake0 :
      (Stmt.selectCandidates epoch
          :: (selectCandidates table epoch).map Stmt.dropDatabase).take
        ((selectCandidates table epoch).length + 1)
      = Stmt.selectCandidates epoch
          :: (selectCandidates table epoch).map Stmt.dropDatabase := by
    rw [List.take_succ_cons, ← hlen, List.take_length]
  refine ⟨?_, ?_, ?_, ?_⟩
  · -- the batched drops cover every candidate, in order, in every branch
    rcases hloop : do_cleanup_loop results (selectCandidates table epoch) [] [] with
      ⟨deleted, logs⟩ | ⟨e, logs⟩ | ⟨msg⟩
    · rw [do_cleanup_eq_finished table epoch _ deleted logs hne hloop rfl]
      simp only [List.cons_append] at htake
      exact htake [Stmt.deleteTrackingRows deleted]
    · rw [do_cleanup_eq_errored table epoch _ e logs hne hloop]
      exact htake0
    · rw [do_cleanup_eq_panicked table epoch _ msg hne hloop]
      exact htake0
  · intro hyp
    rw [Bool.and_eq_true, decide_eq_true_eq] at hyp
    have hloop := do_cleanup_loop_finished results (selectCandidates table epoch) [] []
      hyp.1 hyp.2
    simp only [List.reverse_nil, List.nil_append] at hloop
    exact do_cleanup_eq_finished table epoch _ _ _ hne hloop rfl
  · intro hyp
    rw [Bool.and_eq_true, decide_eq_true_eq] at hyp
    have hloop := do_cleanup_loop_panicked results (selectCandidates table epoch) [] []
      hyp.1 hyp.2
    exact do_cleanup_eq_panicked table epoch _ _ hne hloop
  · intro hyp
    rw [Bool.and_eq_true, Bool.and_eq_true, decide_eq_true_eq, decide_eq_true_eq] at hyp
    obtain ⟨⟨hres, hno⟩, hlt⟩ := hyp
    obtain ⟨ls, hloop⟩ :=
      do_cleanup_loop_errored pre m rest (selectCandidates table epoch) [] [] hno hlt
    rw [hres]
    rw [do_cleanup_eq_errored table epoch
      { dropResults := pre ++ .error (.other m) :: rest, deleteErr := none }
      (.other m) ls hne hloop]
    exact ⟨rfl, rfl, rfl⟩

/-- Claim C4, witnessed on a two-candidate pass where the first drop
succeeds and the second fails with a database-level ("in use") error: the
pass returns count 1, deletes exactly the dropped row, and trace-logs the
skipped one. -/
theorem claim_C4_witness :
    do_cleanup [⟨"dbA", "t", 0⟩, ⟨"dbB", "t", 1⟩] 5
        { dropResults := [.ok (), .error (.database "in use")], deleteErr := none }
      = { outcome := .ok 1, table := [⟨"dbB", "t", 1⟩],
          stmts := [.selectCandidates 5, .dropDatabase "dbA", .dropDatabase "dbB",
                    .deleteTrackingRows ["dbA"]],
          logs := [traceLogMsg "dbB" "in use"] } := by
  have h := (claim_C4_reaper_result_consumption [⟨"dbA", "t", 0⟩, ⟨"dbB", "t", 1⟩] 5
      [.ok (), .error (.database "in use")] [] [] "x" (by decide)).2.1 (by decide)
  rw [h]
  decide

/-- Claim C5 (amended): every database name the provisioner returns is the
fixed prefix `__sqlx_test_` — not `__test_` — followed by the next value of
the monotonic sequence; the insert-and-read-back is the run's single insert
statement, carrying exactly the returned name; and sequential provisioning
calls within one process return pairwise distinct names. -/
theorem claim_C5_amended (st : ProcessState) (now : Nat) (mo : PgConnectOptions)
    (tp : String) (env : TestContextEnv) (ctx : TestContext)
    (st2 : ProcessState) (calls : List TcCall)
    (h : (test_context st now mo tp env).outcome = .ok ctx) :
    ctx.db_name = "__sqlx_test_" ++ natToText (st.seq + 1)
    ∧ (test_context st now mo tp env).state.seq = st.seq + 1
    ∧ (test_context st now mo tp env).stmts.filter isInsertStmt
        = [.insertTestDatabase ctx.db_name tp]
    ∧ (runDbNames (test_context_runs st2 calls).1).Nodup := by
  obtain ⟨master, k, hreg, hcln, hctx, htc⟩ := test_context_ok_inv st now mo tp env ctx h
  refine ⟨?_, ?_, ?_, (runDbNames_spec calls st2).2⟩
  · rw [hctx]
    rfl
  · rw [htc]
  · have hnone : (do_cleanup st.table (st.startTime.getD now) env.cleanup).stmts.filter
        isInsertStmt = [] := by
      have hall := do_cleanup_no_insert st.table (st.startTime.getD now) env.cleanup
      rw [List.all_eq_true] at hall
      rw [List.filter_eq_nil_iff]
      intro a ha
      simpa using hall a ha
    rw [htc]
    dsimp only
    rw [hctx]
    simp [List.filter_append, List.filter_cons, hnone, isInsertStmt]

/-- Claim C5 (amended), witnessed on a fresh process: the first call's
insert statement carries `__sqlx_test_1`, and a two-call run returns
distinct names. -/
theorem claim_C5_witness :
    ((test_context ProcessState.initial 2 ⟨"hostA", "maindb"⟩ "crate::w5"
        TestContextEnv.quiet).stmts.filter isInsertStmt
      = [.insertTestDatabase "__sqlx_test_1" "crate::w5"])
    ∧ (runDbNames (test_context_runs ProcessState.initial
        [⟨2, ⟨"hostA", "maindb"⟩, "crate::w5", TestContextEnv.quiet⟩,
         ⟨9, ⟨"hostA", "maindb"⟩, "crate::w5", TestContextEnv.quiet⟩]).1).Nodup := by
  have h := claim_C5_amended ProcessState.initial 2 ⟨"hostA", "maindb"⟩ "crate::w5"
      TestContextEnv.quiet
      { pool_opts := testPoolOptions, connect_opts := ⟨"hostA", "__sqlx_test_1"⟩,
        db_name := "__sqlx_test_1" }
      ProcessState.initial
      [⟨2, ⟨"hostA", "maindb"⟩, "crate::w5", TestContextEnv.quiet⟩,
       ⟨9, ⟨"hostA", "maindb"⟩, "crate::w5", TestContextEnv.quiet⟩]
      (by decide)
  exact ⟨h.2.2.1, h.2.2.2⟩

/-- Reduction of the `Pool`-entry pipeline past pool creation and the
migration step, when neither fails. -/
theorem pool_test_fn_reduces {R : Type} (args : TestArgs) (env : PoolTestEnv)
    (body : List DbAction → R) (db0 : List DbAction)
    (hc : env.connectErr = false) (hm : env.migrateErr = false) :
    pool_test_fn args env body db0
      = pool_test_body args env body
          (db0 ++ (if args.migrator.isSome then [DbAction.migrationsApplied] else [])) := by
  unfold pool_test_fn
  rw [hc]
  simp only [Bool.false_eq_true, if_false]
  cases hmig : args.migrator with
  | some u => rw [hm]; simp
  | none => simp

/-- Claim C7: fixtures are applied strictly in declared order after the
migration step; the first fixture whose SQL fails aborts the test with a
panic naming that fixture's path, with no later fixture applied and the
body never invoked, while the effects of the earlier, successful fixtures
remain in the database; and when every fixture succeeds they are all
applied in order and the body runs against the resulting database. -/
theorem claim_C7_fixture_pipeline {R : Type} (args : TestArgs) (env : PoolTestEnv)
    (body : List DbAction → R) (db0 : List DbAction)
    (pre : List TestFixture) (f : TestFixture) (post : List TestFixture)
    (hc : env.connectErr = false) (hm : env.migrateErr = false) :
    ((decide (args.fixtures = pre ++ f :: post)
        && (pre.all fun g => !env.fixtureFails g.contents)
        && env.fixtureFails f.contents) = true →
      (pool_test_fn args env body db0).outcome
          = .panic ("failed to apply fixture " ++ f.path)
        ∧ (pool_test_fn args env body db0).bodyRan = false
        ∧ (pool_test_fn args env body db0).db
          = db0 ++ (if args.migrator.isSome then [DbAction.migrationsApplied] else [])
              ++ pre.map (fun g => .fixtureApplied g.path))
    ∧ ((args.fixtures.all fun g => !env.fixtureFails g.contents) = true →
        pool_test_fn args env body db0
          = { outcome := .ok (body (db0
                ++ (if args.migrator.isSome then [DbAction.migrationsApplied] else [])
                ++ args.fixtures.map (fun g => .fixtureApplied g.path))),
              db := db0
                ++ (if args.migrator.isSome then [DbAction.migrationsApplied] else [])
                ++ args.fixtures.map (fun g => .fixtureApplied g.path),
              bodyRan := true }) := by
  constructor
  · intro hyp
    rw [Bool.and_eq_true, Bool.and_eq_true, decide_eq_true_eq] at hyp
    obtain ⟨⟨hfx, hpre⟩, hf⟩ := hyp
    rw [pool_test_fn_reduces args env body db0 hc hm]
    unfold pool_test_body
    rw [hfx, applyFixturesLoop_first_fail env.fixtureFails pre f post _ hpre hf]
    dsimp only
    exact ⟨rfl, rfl, by rw [List.append_assoc]⟩
  · intro hall
    rw [pool_test_fn_reduces args env body db0 hc hm]
    unfold pool_test_body
    rw [applyFixturesLoop_all_ok env.fixtureFails args.fixtures _ hall]

/-- Claim C7, witnessed on a two-fixture list whose second fixture fails:
the pipeline panics naming `fix2.sql`, the body never runs, and the
database keeps the migration and the first fixture's effects. -/
theorem claim_C7_witness :
    (pool_test_fn
        { test_path := "crate::w7", migrator := some (),
          fixtures := [⟨"fix1.sql", "CREATE TABLE a;"⟩, ⟨"fix2.sql", "BROKEN"⟩] }
        { connectErr := false, migrateErr := false,
          fixtureFails := fun c => decide (c = "BROKEN") }
        (fun db => db.length) []).outcome
      = .panic "failed to apply fixture fix2.sql"
    ∧ (pool_test_fn
        { test_path := "crate::w7", migrator := some (),
          fixtures := [⟨"fix1.sql", "CREATE TABLE a;"⟩, ⟨"fix2.sql", "BROKEN"⟩] }
        { connectErr := false, migrateErr := false,
          fixtureFails := fun c => decide (c = "BROKEN") }
        (fun db => db.length) []).bodyRan = false
    ∧ (pool_test_fn
        { test_path := "crate::w7", migrator := some (),
          fixtures := [⟨"fix1.sql", "CREATE TABLE a;"⟩, ⟨"fix2.sql", "BROKEN"⟩] }
        { connectErr := false, migrateErr := false,
          fixtureFails := fun c => decide (c = "BROKEN") }
        (fun db => db.length) []).db
      = [DbAction.migrationsApplied, DbAction.fixtureApplied "fix1.sql"] := by
  have h := (claim_C7_fixture_pipeline
      { test_path := "crate::w7", migrator := some (),
        fixtures := [⟨"fix1.sql", "CREATE TABLE a;"⟩, ⟨"fix2.sql", "BROKEN"⟩] }
      { connectErr := false, migrateErr := false,
        fixtureFails := fun c => decide (c = "BROKEN") }
      (fun db => db.length) []
      [⟨"fix1.sql", "CREATE TABLE a;"⟩] ⟨"fix2.sql", "BROKEN"⟩ []
      rfl rfl).1 (by decide)
  exact ⟨h.1, h.2.1, h.2.2⟩

/-- Claim C8: the epoch timestamp is captured at most once per process —
lazily, by the first call that needs it — and every provisioning-path
reaper pass in the process uses that same fixed value as its cutoff, never
a refreshed one; the operator-facing `cleanup_test_dbs`, by contrast, runs
the reaper with the current wall-clock time as the cutoff and returns its
deleted count, table and statements unchanged. -/
theorem claim_C8_epoch_fixed (st : ProcessState) (calls : List TcCall) (t : Nat)
    (now : Nat) (table : TrackingTable) (cenv : CleanupEnv)
    (st1 : ProcessState) (now1 : Nat) (mo : PgConnectOptions) (tp : String)
    (env1 : TestContextEnv)
    (h : st.startTime = some t) :
    (test_context_runs st calls).2.startTime = some t
    ∧ (((test_context_runs st calls).1).all fun r =>
        r.stmts.all fun s =>
          match s with
          | .selectCandidates e => decide (e = t)
          | _ => true) = true
    ∧ ((test_context st1 now1 mo tp env1).state.startTime = st1.startTime
        ∨ (st1.startTime = none
            ∧ (test_context st1 now1 mo tp env1).state.startTime = some now1))
    ∧ cleanup_test_dbs now table none cenv
      = ((do_cleanup table now cenv).outcome, (do_cleanup table now cenv).table,
          (do_cleanup table now cenv).stmts)
    ∧ ((cleanup_test_dbs now table none cenv).2.2.all fun s =>
        match s with
        | .selectCandidates e => decide (e = now)
        | _ => true) = true := by
  refine ⟨(test_context_runs_epochs calls st t h).1,
          (test_context_runs_epochs calls st t h).2,
          test_context_startTime_cases st1 now1 mo tp env1, rfl, ?_⟩
  rw [List.all_eq_true]
  intro s hs
  cases s with
  | selectCandidates e =>
      have he : e = now := do_cleanup_select_epoch table now cenv e hs
      simp [he]
  | createSchema => rfl
  | dropDatabase n => rfl
  | deleteTrackingRows ns => rfl
  | deleteTrackingRow n => rfl
  | insertTestDatabase n tp2 => rfl

/-- Claim C8, witnessed: a process whose epoch cell holds 42 runs a
provisioning call at wall-clock 77 whose reaper select still uses 42,
while an operator cleanup at wall-clock 100 selects with cutoff 100. -/
theorem claim_C8_witness :
    (((test_context_runs { masterPool := none, startTime := some 42, seq := 0, table := [] }
        [⟨77, ⟨"h", "pg"⟩, "crate::w8", TestContextEnv.quiet⟩]).1).all fun r =>
      r.stmts.all fun s =>
        match s with
        | .selectCandidates e => decide (e = 42)
        | _ => true) = true
    ∧ ((cleanup_test_dbs 100 [⟨"old", "t", 50⟩] none
        { dropResults := [.ok ()], deleteErr := none }).2.2.all fun s =>
      match s with
      | .selectCandidates e => decide (e = 100)
      | _ => true) = true := by
  have h := claim_C8_epoch_fixed
      { masterPool := none, startTime := some 42, seq := 0, table := [] }
      [⟨77, ⟨"h", "pg"⟩, "crate::w8", TestContextEnv.quiet⟩] 42
      100 [⟨"old", "t", 50⟩] { dropResults := [.ok ()], deleteErr := none }
      ProcessState.initial 5 ⟨"h", "pg"⟩ "crate::w8" TestContextEnv.quiet rfl
  exact ⟨h.2.1, h.2.2.2.2⟩

/-- Claim C9 (amended): configuration parsing maps the migrations option as
the claim states — no key yields the inferred `migrations` directory, a
string literal yields that explicit directory, `false` disables migrations,
`true` and any other literal kind are rejected with their descriptive
errors, a second `migrations` key after an accepted first is rejected as a
duplicate, and an unrecognized option is always rejected, never ignored —
but a duplicate `fixtures` option is only rejected when an *earlier*
`fixtures` option contributed at least one fixture (an empty first
`fixtures()` slips through the `!fixtures.is_empty()` check). -/
theorem claim_C9_amended (p : String) (n : Int) (rest args3 : List AttrArg)
    (l1 l2 : SynLit) (items1 items2 : List FixtureItem) (ss : List String) :
    (parse_args [] = .ok { fixtures := [], migrations := .inferredPath }
      ∧ migrationsDirectory .inferredPath = some "migrations")
    ∧ (parse_args [.migrationsNameValue (.str p)]
        = .ok { fixtures := [], migrations := .explicitPath p }
      ∧ migrationsDirectory (.explicitPath p) = some p)
    ∧ (parse_args [.migrationsNameValue (.boolean false)]
        = .ok { fixtures := [], migrations := .disabled }
      ∧ migrationsDirectory .disabled = none)
    ∧ parse_args (.migrationsNameValue (.boolean true) :: rest)
        = .error "`migrations = true` is redundant"
    ∧ parse_args (.migrationsNameValue (.int n) :: rest)
        = .error "expected string or `false`"
    ∧ parse_args (.migrationsNameValue .otherLit :: rest)
        = .error "expected string or `false`"
    ∧ (exceptIsOk (parse_args [.migrationsNameValue l1]) = true →
        parse_args [.migrationsNameValue l1, .migrationsNameValue l2]
          = .error "duplicate `migrations` arg")
    ∧ parse_args (.otherArg :: rest)
        = .error "expected `fixtures(\"<filename>\", ...)` or `migrations = \"<path>\" | false`"
    ∧ (exceptIsOk (parse_args args3) = true → AttrArg.otherArg ∉ args3)
    ∧ (parseFixtureItems items1 = .ok ss → ss ≠ [] →
        parse_args (.fixturesList items1 :: .fixturesList items2 :: rest)
          = .error "duplicate `fixtures` arg") := by
  refine ⟨⟨rfl, rfl⟩, ⟨rfl, rfl⟩, ⟨rfl, rfl⟩, rfl, rfl, rfl, ?_, rfl, ?_, ?_⟩
  · intro hok
    cases l1 with
    | str s => rfl
    | boolean b =>
        cases b with
        | false => rfl
        | true => simp [parse_args, parse_args_loop, exceptIsOk] at hok
    | int m => simp [parse_args, parse_args_loop, exceptIsOk] at hok
    | otherLit => simp [parse_args, parse_args_loop, exceptIsOk] at hok
  · exact fun hok => parse_args_loop_ok_no_other args3 [] .inferredPath hok
  · intro hpi hne
    unfold parse_args parse_args_loop
    rw [if_neg (by simp)]
    rw [hpi]
    unfold parse_args_loop
    rw [if_pos (by simpa using hne)]

/-- Claim C9 (amended), witnessed: a second `migrations` key after
`migrations = false` is rejected as a duplicate, and a second `fixtures`
option after a non-empty first is rejected as a duplicate. -/
theorem claim_C9_witness :
    parse_args [.migrationsNameValue (.boolean false), .migrationsNameValue (.str "x")]
      = .error "duplicate `migrations` arg"
    ∧ parse_args [.fixturesList [.lit (.str "a")], .fixturesList []]
      = .error "duplicate `fixtures` arg" := by
  obtain ⟨hA, hB, hC, hD, hE, hF, hG, hH, hI, hJ⟩ :=
    claim_C9_amended "alt/path" 3 [] [.otherArg] (.boolean false) (.str "x")
      [.lit (.str "a")] [] ["a"]
  exact ⟨hG rfl, hJ rfl (by decide)⟩

end Sqlx
